import Mathlib

/-!
Shallow embedding of the pm2-health monitoring engine (src/Health.ts).

The embedding models the decision logic of Health.ts: the operator table
`OP`, the remote-config merge (`fetchConfig` / `configChanged`), the
exclusion filter (`isAppExcluded`), the event handlers registered in
`go`, the hold-window gate in `mail`, and the per-metric probe
evaluation loop of `testProbes`.

External collaborators (the PM2 process list and bus, the Snapshot
history store, the mail transport, `JSON.parse`, `RegExp`,
`new Date()`) are parameters of the model, matching the spec's
component boundaries.  JavaScript numbers are modelled as `Rat`
(the NaN outcome of a parse is `Option.none`), JavaScript values that
flow through metric probes as `JsVal` (number or string, the two shapes
the program actually compares).
-/

/-- A JavaScript value as it appears in probe values and targets:
a finite number or a string. -/
inductive JsVal where
  | num : Rat → JsVal
  | str : String → JsVal
deriving DecidableEq

/-- Accumulate a digit list into a natural number (base 10). -/
def digitsToNat (cs : List Char) : Nat :=
  cs.foldl (fun a c => a * 10 + (c.toNat - 48)) 0

/-- Value of an integer part `ip` and a fraction part `fp` of a decimal
numeral, as a rational. -/
def decValue (ip fp : List Char) : Rat :=
  (digitsToNat ip : Rat) + (digitsToNat fp : Rat) / (10 : Rat) ^ fp.length

/-- Parse a full unsigned decimal numeral (`digits`, `digits.digits`,
`.digits`, `digits.`); `none` models NaN.  Used for JS `ToNumber`,
which rejects trailing garbage. -/
def parseNumBody (cs : List Char) : Option Rat :=
  let ip := cs.takeWhile Char.isDigit
  let rest := cs.drop ip.length
  match rest with
  | [] => if ip.isEmpty then none else some (digitsToNat ip : Rat)
  | '.' :: fp =>
      if fp.all Char.isDigit && !(ip.isEmpty && fp.isEmpty) then
        some (decValue ip fp)
      else none
  | _ => none

/-- Strip leading and trailing whitespace from a character list. -/
def trimWs (cs : List Char) : List Char :=
  ((cs.dropWhile Char.isWhitespace).reverse.dropWhile Char.isWhitespace).reverse

/-- JS `ToNumber` applied to a string (decimal forms): trims
whitespace, the empty string is `0`, otherwise the whole remainder must
be a signed decimal numeral; `none` models NaN.  This is the conversion
used by the loose `!=` and by relational operators on mixed types. -/
def jsToNumberStr (s : String) : Option Rat :=
  match trimWs s.data with
  | [] => some 0
  | '+' :: rest => parseNumBody rest
  | '-' :: rest => (parseNumBody rest).map (fun q => -q)
  | cs => parseNumBody cs

/-- Longest-prefix unsigned decimal parse, as in `Number.parseFloat`:
takes leading digits, an optional point and fraction digits, and
ignores anything after; `none` (NaN) iff no digit was consumed. -/
def parseFloatBody (cs : List Char) : Option Rat :=
  let ip := cs.takeWhile Char.isDigit
  let rest := cs.drop ip.length
  match rest with
  | '.' :: rest2 =>
      let fp := rest2.takeWhile Char.isDigit
      if ip.isEmpty && fp.isEmpty then none else some (decValue ip fp)
  | _ => if ip.isEmpty then none else some (digitsToNat ip : Rat)

/-- JS `Number.parseFloat` on a string: skip leading whitespace,
optional sign, then the longest decimal prefix; `none` models NaN. -/
def jsParseFloatStr (s : String) : Option Rat :=
  match s.data.dropWhile Char.isWhitespace with
  | '+' :: rest => parseFloatBody rest
  | '-' :: rest => (parseFloatBody rest).map (fun q => -q)
  | cs => parseFloatBody cs

/-- `Number.parseFloat(v)` as used at Health.ts line 291: a number
round-trips to itself, a string goes through the prefix parse;
`none` models the NaN result checked by `Number.isNaN`. -/
def parseFloatM : JsVal → Option Rat
  | .num q => some q
  | .str s => jsParseFloatStr s

/-- JS truthiness of a `JsVal` (used by `if (e.pm2_env["_pm2_version"])`
style guards): `0` and the empty string are falsy. -/
def jsTruthy : JsVal → Bool
  | .num q => q != 0
  | .str s => s != ""

/-- JS strict equality `===` on our value domain: equal only when the
types agree and the payloads agree. -/
def jsStrictEq : JsVal → JsVal → Bool
  | .num a, .num b => a == b
  | .str a, .str b => a == b
  | _, _ => false

/-- JS loose equality `==` on our value domain: same-type compares
payloads, number-vs-string converts the string with `ToNumber`. -/
def jsLooseEq : JsVal → JsVal → Bool
  | .num a, .num b => a == b
  | .str a, .str b => a == b
  | .num a, .str b => jsToNumberStr b == some a
  | .str a, .num b => jsToNumberStr a == some b

/-- Lexicographic order on character lists by code point, as JS
compares two strings code-unit-wise. -/
def charListLt : List Char → List Char → Bool
  | [], [] => false
  | [], _ :: _ => true
  | _ :: _, [] => false
  | a :: as, b :: bs =>
      if a.toNat < b.toNat then true
      else if b.toNat < a.toNat then false
      else charListLt as bs

/-- JS `<` on two strings. -/
def jsStrLt (a b : String) : Bool := charListLt a.data b.data

/-- JS `<` (abstract relational comparison) on our value domain: two
strings compare lexicographically, otherwise both sides go through
`ToNumber` and a NaN makes the comparison false. -/
def jsLt : JsVal → JsVal → Bool
  | .str a, .str b => jsStrLt a b
  | a, b =>
      match (match a with | .num q => some q | .str s => jsToNumberStr s),
            (match b with | .num q => some q | .str s => jsToNumberStr s) with
      | some x, some y => decide (x < y)
      | _, _ => false

/-- JS `<=`: `!(b < a)` with an undefined (NaN) comparison giving
false. -/
def jsLe : JsVal → JsVal → Bool
  | .str a, .str b => !jsStrLt b a
  | a, b =>
      match (match a with | .num q => some q | .str s => jsToNumberStr s),
            (match b with | .num q => some q | .str s => jsToNumberStr s) with
      | some x, some y => decide (x ≤ y)
      | _, _ => false

/-- The `OP` dispatch table of Health.ts lines 15-22: a recognized
operator name evaluates to `some` of the JS comparison, an unrecognized
one (`key in OP` false) gives `none`. -/
def evalOp (op : String) (a b : JsVal) : Option Bool :=
  if op = "<" then some (jsLt a b)
  else if op = ">" then some (jsLt b a)
  else if op = "=" then some (jsStrictEq a b)
  else if op = "<=" then some (jsLe a b)
  else if op = ">=" then some (jsLe b a)
  else if op = "!=" then some (!jsLooseEq a b)
  else none

/-- Whether an optional operator name is one of the six keys of `OP`
(the `probe.op && probe.op in OP` guard; an absent operator is not
recognized, and the empty string is falsy hence also rejected). -/
def opRecognized : Option String → Bool
  | some o => ["<", ">", "=", "<=", ">=", "!="].contains o
  | none => false

/-- A probe rule (the per-metric entry of `config.metric`,
Health.ts lines 28-36).  The boolean fields stand for the outcome of
the guard the source applies to them (`exclude === true`,
`!probe.direct`, `probe.noNotify !== true`, `probe.ifChanged !== true`,
`!probe.noHistory`); `op` is the raw operator string and `target` the
raw JSON value, with `none` for absent/null. -/
structure ProbeRule where
  target : Option JsVal := none
  op : Option String := none
  ifChanged : Bool := false
  noHistory : Bool := false
  noNotify : Bool := false
  exclude : Bool := false
  direct : Bool := false
deriving DecidableEq

/-- The effective configuration (`this._config` of Health.ts) and its
derived state.  `events`, `messageExcludeExps` and `appsExcluded` are
`none` when the field is not an array (the source guards each with
`Array.isArray`).  `compiledExps` models `this._messageExcludeExps`,
the derived compiled-regex list, by the list of source patterns.
`smtpHost` stands for the non-whitelisted configuration fields
(ISmtpConfig etc.) that the remote merge must never touch. -/
structure Config where
  events : Option (List String) := none
  metric : List (String × ProbeRule) := []
  exceptions : Bool := false
  messages : Bool := false
  messageExcludeExps : Option (List String) := none
  appsExcluded : Option (List String) := none
  metricIntervalS : Rat := 60
  addLogs : Bool := false
  compiledExps : List String := []
  smtpHost : String := ""
deriving DecidableEq

/-- A parsed remote-config JSON payload.  Each whitelisted key is
`none` when absent; `otherKey` stands for any key outside
`CONFIG_KEYS`, which the merge loop never reads. -/
structure Payload where
  events : Option (List String) := none
  metric : Option (List (String × ProbeRule)) := none
  exceptions : Option Bool := none
  messages : Option Bool := none
  messageExcludeExps : Option (List String) := none
  appsExcluded : Option (List String) := none
  metricIntervalS : Option Rat := none
  addLogs : Option Bool := none
  otherKey : Option String := none
deriving DecidableEq

/-- The `for (let key of CONFIG_KEYS) if (config[key]) this._config[key]
= config[key]` loop of Health.ts lines 83-87.  Each whitelisted key is
applied exactly when it is present and truthy in the payload: arrays
and objects are always truthy when present, a boolean is truthy only
when `true`, a number is truthy only when nonzero.  The keys assign
distinct fields, so the sequential loop is this record update. -/
def applyKeys (c : Config) (p : Payload) : Config :=
  { c with
    events := match p.events with | some v => some v | none => c.events
    metric := match p.metric with | some v => v | none => c.metric
    exceptions := match p.exceptions with
      | some b => if b then b else c.exceptions
      | none => c.exceptions
    messages := match p.messages with
      | some b => if b then b else c.messages
      | none => c.messages
    messageExcludeExps := match p.messageExcludeExps with
      | some v => some v | none => c.messageExcludeExps
    appsExcluded := match p.appsExcluded with
      | some v => some v | none => c.appsExcluded
    metricIntervalS := match p.metricIntervalS with
      | some q => if q != 0 then q else c.metricIntervalS
      | none => c.metricIntervalS
    addLogs := match p.addLogs with
      | some b => if b then b else c.addLogs
      | none => c.addLogs }

/-- `configChanged` (Health.ts lines 98-102), parameterized by the
external `RegExp` constructor: `regexOk pat` is whether
`new RegExp(pat)` succeeds.  `this._messageExcludeExps` is first reset
to `[]`; then, when the config field is an array, it is mapped through
the constructor — if some pattern throws, the assignment of the mapped
array never happens, the reset `[]` stays, and the exception
propagates (second component `false`). -/
def configChangedRun (regexOk : String → Bool) (c : Config) : Config × Bool :=
  let c1 := { c with compiledExps := [] }
  match c.messageExcludeExps with
  | some exps =>
      if exps.all regexOk then ({ c1 with compiledExps := exps }, true)
      else (c1, false)
  | none => (c1, true)

/-- `fetchConfig` (Health.ts lines 70-94).  The network fetch and
`JSON.parse` are collapsed into the `fetched` argument (`Except.error`
for a network or parse failure — nothing was mutated before either
throws).  On success the key loop runs, then `configChanged`; any
exception is caught and only logged, so the state reached at the throw
point is what remains. -/
def fetchConfig (regexOk : String → Bool) (fetched : Except String Payload)
    (c : Config) : Config :=
  match fetched with
  | .error _ => c
  | .ok p => (configChangedRun regexOk (applyKeys c p)).1

/-- `isAppExcluded` (Health.ts lines 104-106): the tool's own name, or
membership in `appsExcluded` when that field is an array. -/
def isAppExcluded (c : Config) (app : String) : Bool :=
  app == "pm2-health" ||
    (match c.appsExcluded with
     | some l => l.contains app
     | none => false)

/-- The process fields an event payload carries
(`data.process`): name, pm2 id, and the two log paths consulted by
`LOGS`. -/
structure ProcInfo where
  name : String
  pm_id : Nat
  pm_err_log_path : Option String := none
  pm_out_log_path : Option String := none
deriving DecidableEq

/-- A `process:event` bus payload. -/
structure EventData where
  manually : Bool := false
  process : ProcInfo
  event : String
deriving DecidableEq

/-- A mail attachment `{filename, path}`. -/
structure Attachment where
  filename : String
  path : String
deriving DecidableEq

/-- An alert as handed to `this.mail`: the subject line and the
attachment list.  The HTML body is opaque formatting of the same data
and is not modelled. -/
structure Alert where
  subject : String
  attachments : List Attachment := []
deriving DecidableEq

/-- `basename` of a path (Node's `path.basename`): the segment after
the last slash. -/
def basename (s : String) : String :=
  ((s.splitOn "/").getLast?).getD s

/-- The attachment list built at Health.ts line 144:
`LOGS.filter(e => addLogs === true && data.process[e]).map(...)`, with
`LOGS = [pm_err_log_path, pm_out_log_path]`; a present-but-empty path
string is falsy and filtered out. -/
def logAttachments (c : Config) (p : ProcInfo) : List Attachment :=
  ([p.pm_err_log_path, p.pm_out_log_path].filterMap
    (fun o => match o with
      | some path =>
          if c.addLogs && path != "" then some ⟨basename path, path⟩ else none
      | none => none))

/-- The `process:event` handler (Health.ts lines 131-145): returns the
alert it mails, or `none` when the handler returns early.  Manual
events and excluded apps are dropped; when `events` is an array, an
event whose name is not in it (`indexOf === -1`) is dropped. -/
def eventAlert (c : Config) (d : EventData) : Option Alert :=
  if d.manually || isAppExcluded c d.process.name then none
  else
    match c.events with
    | some evs =>
        if evs.contains d.event then
          some ⟨d.process.name ++ ":" ++ toString d.process.pm_id ++ " - " ++ d.event,
                logAttachments c d.process⟩
        else none
    | none =>
        some ⟨d.process.name ++ ":" ++ toString d.process.pm_id ++ " - " ++ d.event,
              logAttachments c d.process⟩

/-- The `process:exception` channel (Health.ts lines 147-157): the
handler is only registered when `config.exceptions` is truthy, and
drops excluded apps. -/
def exceptionAlert (c : Config) (name : String) (pmId : Nat) : Option Alert :=
  if c.exceptions then
    if isAppExcluded c name then none
    else some ⟨name ++ ":" ++ toString pmId ++ " - exception", []⟩
  else none

/-- The `process:msg` channel (Health.ts lines 159-175): registered
only when `config.messages` is truthy; drops excluded apps and
payloads whose serialized JSON matches some compiled exclusion
pattern.  `test pat text` is the external `RegExp.prototype.test`. -/
def messageAlert (test : String → String → Bool) (c : Config)
    (name : String) (pmId : Nat) (json : String) : Option Alert :=
  if c.messages then
    if isAppExcluded c name then none
    else if c.compiledExps.any (fun pat => test pat json) then none
    else some ⟨name ++ ":" ++ toString pmId ++ " - message", []⟩
  else none

/-- One observed monitor metric (`monit[key]`): its value and whether
the entry carries `direct: true` (only the injected pm2/node version
metrics do). -/
structure MonitEntry where
  value : JsVal
  direct : Bool := false
deriving DecidableEq

/-- Lookup in the `config.metric` map (an object keyed by metric
name, modelled as an association list with the first binding
winning). -/
def lookupRule (metric : List (String × ProbeRule)) (key : String) :
    Option ProbeRule :=
  (metric.find? (fun kv => kv.1 == key)).map (fun kv => kv.2)

/-- Rule resolution at Health.ts lines 278-281: the configured rule, or
`{ noNotify: true, direct: monit[key].direct === true, noHistory:
monit[key].direct === true }` when the metric has no entry. -/
def resolveRule (metric : List (String × ProbeRule)) (key : String)
    (entry : MonitEntry) : ProbeRule :=
  match lookupRule metric key with
  | some p => p
  | none => { noNotify := true, direct := entry.direct, noHistory := entry.direct }

/-- One `<tr>` alert row of Health.ts line 303: app name and id, metric
key, current value, last recorded value, and the rule's target. -/
structure AlertRow where
  name : String
  pm_id : Nat
  key : String
  v : JsVal
  last : Option JsVal
  target : Option JsVal
deriving DecidableEq

/-- One `this._snapshot.push(pm_id, name, key, !probe.noHistory, data)`
call (Health.ts line 310): `keep` is `!probe.noHistory`, `bad` is
whether `data.bad = true` was set. -/
structure PushCall where
  pm_id : Nat
  name : String
  key : String
  keep : Bool
  v : JsVal
  bad : Bool
deriving DecidableEq

/-- Trace of one iteration of the metric loop of `testProbes`
(Health.ts lines 277-311): the locals `v` (after any coercion) and
`bad`, the alert row pushed onto `alerts` (if any), the snapshot push
(if reached), and which `continue` fired. -/
structure MetricOutcome where
  excludeSkip : Bool := false
  nanSkip : Bool := false
  vUsed : Option JsVal := none
  bad : Option Bool := none
  alert : Option AlertRow := none
  pushCall : Option PushCall := none
deriving DecidableEq

/-- The `bad` assignment of Health.ts lines 298-299:
`if (probe.op && probe.op in OP && probe.target != null)
bad = OP[probe.op](v, probe.target)`, else `bad` stays undefined.
An unrecognized operator leaves `evalOp` at `none`. -/
def computeBad (r : ProbeRule) (v : JsVal) : Option Bool :=
  match r.op, r.target with
  | some o, some t => evalOp o v t
  | _, _ => none

/-- The `this._snapshot.last(e.pm_id, key) !== v` test: strict JS
inequality against the last recorded value, `undefined !== v` being
true. -/
def lastDiffers (l : Option JsVal) (v : JsVal) : Bool :=
  match l with
  | none => true
  | some lv => !jsStrictEq lv v

/-- One iteration of the metric loop of `testProbes` (Health.ts lines
277-311) for key `key` with observed entry `entry`.  `last` is the
history store's `last` lookup.  Mirrors the source order: resolve the
rule; `continue` on `exclude === true`; coerce through
`Number.parseFloat` unless `direct`, `continue` on NaN; compute `bad`;
push an alert row iff `noNotify !== true && bad === true &&
(ifChanged !== true || last(pm_id, key) !== v)`; finally call
`snapshot.push` with `!noHistory` and `data.bad` set iff `bad` is
truthy. -/
def evalMetric (metric : List (String × ProbeRule))
    (last : Nat → String → Option JsVal) (name : String) (pmId : Nat)
    (key : String) (entry : MonitEntry) : MetricOutcome :=
  let probe := resolveRule metric key entry
  if probe.exclude then { excludeSkip := true }
  else
    match (if probe.direct then some entry.value
           else (parseFloatM entry.value).map JsVal.num) with
    | none => { nanSkip := true }
    | some v =>
        let bad := computeBad probe v
        let alert :=
          if !probe.noNotify && bad == some true &&
              (!probe.ifChanged || lastDiffers (last pmId key) v) then
            some ⟨name, pmId, key, v, last pmId key, probe.target⟩
          else none
        { vUsed := some v
          bad := bad
          alert := alert
          pushCall := some ⟨pmId, name, key, !probe.noHistory, v, bad == some true⟩ }

/-- The metric loop over all keys of one process's monitor map, in
key order, collecting the alert rows and snapshot pushes. -/
def evalMetrics (metric : List (String × ProbeRule))
    (last : Nat → String → Option JsVal) (name : String) (pmId : Nat) :
    List (String × MonitEntry) → List AlertRow × List PushCall
  | [] => ([], [])
  | (key, entry) :: rest =>
      let o := evalMetric metric last name pmId key entry
      let r := evalMetrics metric last name pmId rest
      (o.alert.toList ++ r.1, o.pushCall.toList ++ r.2)

/-- Set a key in an object modelled as an association list: an existing
binding is overwritten in place, a new key is appended (JS property
assignment and enumeration order). -/
def assocSet (m : List (String × MonitEntry)) (k : String) (v : MonitEntry) :
    List (String × MonitEntry) :=
  match m with
  | [] => [(k, v)]
  | (k1, v1) :: rest =>
      if k1 == k then (k, v) :: rest else (k1, v1) :: assocSet rest k v

/-- One entry of the PM2 process list as `testProbes` reads it:
`axm_monitor` (absent/falsy becomes `{}`), the `monit` stats used to
inject `memory` and `cpu`, and the two version strings injected as
`direct` metrics when present and truthy. -/
structure ProcEntry where
  name : String
  pm_id : Nat
  axm_monitor : Option (List (String × MonitEntry)) := none
  monit : Option (Rat × Rat) := none
  pm2_version : Option JsVal := none
  node_version : Option JsVal := none
deriving DecidableEq

/-- Building the `monit` map of Health.ts lines 258-275: start from
`axm_monitor` (or `{}`), overwrite `memory` (bytes / 1048576) and `cpu`
when `e.monit` is present, then add `pm2` and `node` as `direct`
entries when the version values are present and truthy. -/
def buildMonit (e : ProcEntry) : List (String × MonitEntry) :=
  let m0 := e.axm_monitor.getD []
  let m1 := match e.monit with
    | some mc =>
        assocSet (assocSet m0 "memory" ⟨JsVal.num (mc.1 / 1048576), false⟩)
          "cpu" ⟨JsVal.num mc.2, false⟩
    | none => m0
  let m2 := match e.pm2_version with
    | some v => if jsTruthy v then assocSet m1 "pm2" ⟨v, true⟩ else m1
    | none => m1
  match e.node_version with
  | some v => if jsTruthy v then assocSet m2 "node" ⟨v, true⟩ else m2
  | none => m2

/-- The per-process body of `testProbes` (Health.ts lines 254-311): an
excluded process is skipped whole (`continue` before any metric work),
otherwise every key of its monitor map is evaluated. -/
def evalProc (c : Config) (last : Nat → String → Option JsVal)
    (e : ProcEntry) : List AlertRow × List PushCall :=
  if isAppExcluded c e.name then ([], [])
  else evalMetrics c.metric last e.name e.pm_id (buildMonit e)

/-- The hold-window gate of `Health.mail` (Health.ts lines 232-236):
`if (this._holdTill != null && t < this._holdTill) return` — the
result is whether `this._mail.send` is reached.  Times are epoch
milliseconds. -/
def mailSends (holdTill : Option Int) (now : Int) : Bool :=
  match holdTill with
  | some h => if now < h then false else true
  | none => true

/-- A history store that has recorded nothing yet (`last` always
`undefined`). -/
def lastNone : Nat → String → Option JsVal := fun _ _ => none

/-- A direct probe rule that nevertheless sets a recognized operator
and a target (the configuration §9 of the spec calls out as
unguarded). -/
def ruleC1 : ProbeRule :=
  { target := some (.str "2.0.0"), op := some ">", direct := true }

/-- A metric map holding `ruleC1` for the injected `pm2` version
metric. -/
def metricCfgC1 : List (String × ProbeRule) := [("pm2", ruleC1)]

/-- The observed `pm2` version entry (a direct built-in). -/
def entryC1 : MonitEntry := ⟨.str "3.2.2", true⟩

/-- A configuration whose `events` filter is the empty array. -/
def cfgC2 : Config := { events := some [] }

/-- A non-manual `exit` lifecycle event for an ordinary app. -/
def dataC2 : EventData := { process := ⟨"worker", 4, none, none⟩, event := "exit" }

/-- A configuration with no `events` filter (field not an array). -/
def cfgNoEvents : Config := {}

/-- The external `RegExp` constructor outcome: every pattern compiles
except the unbalanced group `"("`, which throws a SyntaxError in
JavaScript. -/
def regexOkC3 : String → Bool := fun s => s != "("

/-- An effective configuration before a remote fetch. -/
def cfgC3 : Config := { events := some ["restart"], smtpHost := "mail.example" }

/-- A remote payload whose exclusion pattern does not compile. -/
def payloadC3 : Payload :=
  { events := some ["exit"], messageExcludeExps := some ["("] }

/-- The spec's scenario rule: `{op: ">", target: 90}` with
notifications on. -/
def ruleC4 : ProbeRule := { target := some (.num 90), op := some ">" }

/-- A metric map configuring `ruleC4` for `cpu`. -/
def metricCfgC4 : List (String × ProbeRule) := [("cpu", ruleC4)]

/-- A configuration excluding the app named `worker`. -/
def cfgC8 : Config := { appsExcluded := some ["worker"] }

/-- A process entry for the excluded app, with live monitor stats. -/
def procC8 : ProcEntry :=
  { name := "worker", pm_id := 2, monit := some (2097152, 50) }

/-- An unrecognized operator name (not a key of `OP`) evaluates to
`none`: the `probe.op in OP` guard fails and `bad` stays undefined. -/
theorem evalOp_unrecognized (o : String) (a b : JsVal)
    (h : opRecognized (some o) = false) : evalOp o a b = none := by
  by_cases h1 : o = "<"
  · subst h1; exact absurd h (by decide)
  by_cases h2 : o = ">"
  · subst h2; exact absurd h (by decide)
  by_cases h3 : o = "="
  · subst h3; exact absurd h (by decide)
  by_cases h4 : o = "<="
  · subst h4; exact absurd h (by decide)
  by_cases h5 : o = ">="
  · subst h5; exact absurd h (by decide)
  by_cases h6 : o = "!="
  · subst h6; exact absurd h (by decide)
  unfold evalOp
  rw [if_neg h1, if_neg h2, if_neg h3, if_neg h4, if_neg h5, if_neg h6]

/-- When the rule's operator is unrecognized or its target is
null/absent, the `bad` assignment is never executed. -/
theorem computeBad_none (r : ProbeRule) (v : JsVal)
    (h : opRecognized r.op = false ∨ r.target = none) :
    computeBad r v = none := by
  unfold computeBad
  cases hop : r.op with
  | none => cases ht : r.target <;> rfl
  | some o =>
      cases ht : r.target with
      | none => rfl
      | some t =>
          cases h with
          | inl h1 => rw [hop] at h1; exact evalOp_unrecognized o v t h1
          | inr h2 => rw [ht] at h2; exact absurd h2 (by simp)

/-- C10: the `=` probe operator is JS strict equality and `!=` is JS
loose inequality, so they are not logical negations: at the number 5
versus the string "5" — a loosely equal pair of differing types — `=`
evaluates to false and `!=` also evaluates to false. -/
theorem claimC10_strict_vs_loose :
    (∀ a b, evalOp "=" a b = some (jsStrictEq a b)) ∧
    (∀ a b, evalOp "!=" a b = some (!jsLooseEq a b)) ∧
    jsLooseEq (.num 5) (.str "5") = true ∧
    evalOp "=" (.num 5) (.str "5") = some false ∧
    evalOp "!=" (.num 5) (.str "5") = some false := by
  refine ⟨?_, ?_, by decide, by decide, by decide⟩
  · intro a b; simp [evalOp]
  · intro a b; simp [evalOp]

/-- C5: the hold-window gate of `Health.mail`: while `_holdTill` is
set and the current time is strictly before it, the mail collaborator
is never invoked; at or after the expiry, or with no hold set, it is
invoked. -/
theorem claimC5_hold_gate :
    (∀ h now : Int, now < h → mailSends (some h) now = false) ∧
    (∀ h now : Int, h ≤ now → mailSends (some h) now = true) ∧
    (∀ now : Int, mailSends none now = true) := by
  refine ⟨?_, ?_, ?_⟩
  · intro h now hlt; simp [mailSends, hlt]
  · intro h now hle; simp [mailSends, not_lt.mpr hle]
  · intro now; rfl

/-- C5 witness: a hold till 100 drops a mail at 40, delivers at 100,
and no hold delivers at 7. -/
theorem claimC5_witness :
    mailSends (some 100) 40 = false ∧ mailSends (some 100) 100 = true ∧
      mailSends none 7 = true :=
  ⟨claimC5_hold_gate.1 100 40 (by decide),
   claimC5_hold_gate.2.1 100 100 (by decide),
   claimC5_hold_gate.2.2 7⟩

/-- C1 counterexample: a `direct: true` rule with the recognized
operator `>` and a non-null target, evaluating the injected `pm2`
version string.  The comparison at Health.ts line 299 is not guarded
by `!probe.direct`, so `bad` is computed ("3.2.2" > "2.0.0" is true)
and an alert row is raised — refuting that a direct probe is never
compared and never alerts. -/
theorem claimC1_counterexample :
    ruleC1.direct = true ∧ opRecognized ruleC1.op = true ∧
    ruleC1.target = some (.str "2.0.0") ∧
    (evalMetric metricCfgC1 lastNone "app" 1 "pm2" entryC1).bad = some true ∧
    (evalMetric metricCfgC1 lastNone "app" 1 "pm2" entryC1).alert.isSome = true := by
  exact ⟨by decide, by decide, by decide, by decide, by decide⟩

/-- C1 (amended): for a probe rule with `direct: true` (and not
excluded) the value bypasses `Number.parseFloat` — it is used raw and
the NaN skip cannot fire — but it IS compared against `target` exactly
as for any rule: `bad` is the `OP` evaluation whenever `op` is
recognized and `target` is non-null, so a direct probe can yield
`bad = true` and raise a threshold alert. -/
theorem claimC1_direct_still_compared (metric : List (String × ProbeRule))
    (last : Nat → String → Option JsVal) (name : String) (pmId : Nat)
    (key : String) (entry : MonitEntry) (r : ProbeRule)
    (hr : resolveRule metric key entry = r) (hd : r.direct = true)
    (he : r.exclude = false) :
    (evalMetric metric last name pmId key entry).nanSkip = false ∧
    (evalMetric metric last name pmId key entry).vUsed = some entry.value ∧
    (evalMetric metric last name pmId key entry).bad = computeBad r entry.value := by
  simp only [evalMetric, hr, he, hd, Bool.false_eq_true, if_false, if_true]
  exact ⟨trivial, trivial, trivial⟩

/-- C1 witness: the amended theorem applied at the concrete direct
`pm2` probe: the raw version string is used and `bad` is the `>`
comparison against the target. -/
theorem claimC1_witness :
    (evalMetric metricCfgC1 lastNone "app" 1 "pm2" entryC1).vUsed =
        some (.str "3.2.2") ∧
    (evalMetric metricCfgC1 lastNone "app" 1 "pm2" entryC1).bad =
        computeBad ruleC1 (.str "3.2.2") := by
  have h := claimC1_direct_still_compared metricCfgC1 lastNone "app" 1 "pm2"
    entryC1 ruleC1 (by decide) (by decide) (by decide)
  exact ⟨h.2.1, h.2.2⟩

/-- C2 counterexample: a configured but empty `events` array, a
non-manual `exit` event on a non-excluded app.  The claim says an
empty configured list alerts on every event; the source's
`indexOf(data.event) === -1` is true for the empty array, so the
handler returns early and no alert is produced. -/
theorem claimC2_counterexample :
    dataC2.manually = false ∧
    isAppExcluded cfgC2 dataC2.process.name = false ∧
    cfgC2.events = some [] ∧
    eventAlert cfgC2 dataC2 = none := by
  exact ⟨by decide, by decide, by decide, by decide⟩

/-- C2 (amended): for a lifecycle event that is not manually triggered
and whose process is not excluded, an alert is produced when `events`
is absent (not an array); when `events` is a configured array, an
alert is produced iff the event's name is in it — in particular a
configured empty list suppresses every lifecycle alert. -/
theorem claimC2_event_filter (c : Config) (d : EventData)
    (hm : d.manually = false)
    (hx : isAppExcluded c d.process.name = false) :
    (eventAlert c d).isSome =
      (match c.events with
       | some evs => evs.contains d.event
       | none => true) := by
  unfold eventAlert
  rw [hm, hx]
  simp only [Bool.or_self, Bool.false_eq_true, if_false]
  cases c.events with
  | none => rfl
  | some evs =>
      dsimp only
      cases hc : evs.contains d.event <;> simp

/-- C2 witness: the amended theorem at concrete inputs — no `events`
filter alerts on `exit`; a `["restart"]` filter drops `exit`. -/
theorem claimC2_witness :
    (eventAlert cfgNoEvents dataC2).isSome = true ∧
    (eventAlert { events := some ["restart"] } dataC2).isSome = false := by
  have h1 := claimC2_event_filter cfgNoEvents dataC2 (by decide) (by decide)
  have h2 := claimC2_event_filter { events := some ["restart"] } dataC2
    (by decide) (by decide)
  exact ⟨h1, by rw [h2]; decide⟩

/-- C3 counterexample: a fetch whose payload carries the exclusion
pattern `"("` — an invalid regular expression, so the recompilation
step throws — together with an `events` override.  The error is
caught, but only after the key loop already assigned the whitelisted
keys: the effective configuration is NOT left as it was (its `events`
changed to the payload's), refuting the no-partial-apply claim for the
recompile-failure case. -/
theorem claimC3_counterexample :
    regexOkC3 "(" = false ∧
    (applyKeys cfgC3 payloadC3).messageExcludeExps = some ["("] ∧
    fetchConfig regexOkC3 (.ok payloadC3) cfgC3 ≠ cfgC3 ∧
    (fetchConfig regexOkC3 (.ok payloadC3) cfgC3).events = some ["exit"] ∧
    cfgC3.events = some ["restart"] := by
  exact ⟨by decide, by decide, by decide, by decide, by decide⟩

/-- C3 (amended): a network or parse failure is caught, logged and
leaves the effective configuration exactly as it was; but an error
thrown while recompiling the derived regex state is caught only after
the key loop ran: the whitelisted keys stay applied and the compiled
exclusion list is left empty — the configuration is not rolled
back. -/
theorem claimC3_fetch_failures (regexOk : String → Bool) :
    (∀ (msg : String) (c : Config), fetchConfig regexOk (.error msg) c = c) ∧
    (∀ (p : Payload) (c : Config) (exps : List String),
      (applyKeys c p).messageExcludeExps = some exps →
      exps.all regexOk = false →
      fetchConfig regexOk (.ok p) c =
        { applyKeys c p with compiledExps := [] }) := by
  constructor
  · intro msg c; rfl
  · intro p c exps h1 h2
    show (configChangedRun regexOk (applyKeys c p)).1 = _
    unfold configChangedRun
    rw [h1]
    dsimp only
    rw [h2]
    simp [h1]

/-- C3 witness: the amended theorem at the concrete failing fetch and
at a network failure. -/
theorem claimC3_witness :
    fetchConfig regexOkC3 (.error "ECONNREFUSED") cfgC3 = cfgC3 ∧
    fetchConfig regexOkC3 (.ok payloadC3) cfgC3 =
      { applyKeys cfgC3 payloadC3 with compiledExps := [] } :=
  ⟨(claimC3_fetch_failures regexOkC3).1 "ECONNREFUSED" cfgC3,
   (claimC3_fetch_failures regexOkC3).2 payloadC3 cfgC3 ["("]
     (by decide) (by decide)⟩

/-- C7: applying a remote payload overwrites exactly the whitelisted
keys that are present and truthy in it (arrays and objects are truthy
whenever present, booleans only when `true`, the interval only when
nonzero); every other field of the effective configuration — and in
particular the non-whitelisted fields and any key outside the
whitelist — is left unchanged. -/
theorem claimC7_partial_override (c : Config) (p : Payload) :
    (applyKeys c p).events =
      (match p.events with | some v => some v | none => c.events) ∧
    (applyKeys c p).metric =
      (match p.metric with | some v => v | none => c.metric) ∧
    (applyKeys c p).exceptions =
      (match p.exceptions with
       | some b => if b then b else c.exceptions
       | none => c.exceptions) ∧
    (applyKeys c p).messages =
      (match p.messages with
       | some b => if b then b else c.messages
       | none => c.messages) ∧
    (applyKeys c p).messageExcludeExps =
      (match p.messageExcludeExps with
       | some v => some v | none => c.messageExcludeExps) ∧
    (applyKeys c p).appsExcluded =
      (match p.appsExcluded with
       | some v => some v | none => c.appsExcluded) ∧
    (applyKeys c p).metricIntervalS =
      (match p.metricIntervalS with
       | some q => if q != 0 then q else c.metricIntervalS
       | none => c.metricIntervalS) ∧
    (applyKeys c p).addLogs =
      (match p.addLogs with
       | some b => if b then b else c.addLogs
       | none => c.addLogs) ∧
    (applyKeys c p).compiledExps = c.compiledExps ∧
    (applyKeys c p).smtpHost = c.smtpHost ∧
    applyKeys c p = applyKeys c { p with otherKey := none } :=
  ⟨rfl, rfl, rfl, rfl, rfl, rfl, rfl, rfl, rfl, rfl, rfl⟩

/-- C4: in one probe-evaluation pass, for a metric whose resolved rule
is not excluded, an alert row is produced iff `noNotify` is not true
AND the threshold test evaluated to true AND (`ifChanged` is not true
OR the coerced value differs — by JS strict inequality — from the
history store's last recorded value); and when the operator is
unrecognized or the target is null/absent, `bad` stays undefined and
no alert row is produced. -/
theorem claimC4_alert_decision (metric : List (String × ProbeRule))
    (last : Nat → String → Option JsVal) (name : String) (pmId : Nat)
    (key : String) (entry : MonitEntry) (r : ProbeRule)
    (hr : resolveRule metric key entry = r) (he : r.exclude = false) :
    ((evalMetric metric last name pmId key entry).alert.isSome =
      (!r.noNotify &&
        ((evalMetric metric last name pmId key entry).bad == some true) &&
        (!r.ifChanged ||
          (match (evalMetric metric last name pmId key entry).vUsed with
           | some v => lastDiffers (last pmId key) v
           | none => false)))) ∧
    (opRecognized r.op = false ∨ r.target = none →
      (evalMetric metric last name pmId key entry).bad = none ∧
      (evalMetric metric last name pmId key entry).alert = none) := by
  subst hr
  simp only [evalMetric, he, Bool.false_eq_true, if_false]
  cases hp : (if (resolveRule metric key entry).direct then some entry.value
      else (parseFloatM entry.value).map JsVal.num) with
  | none =>
      constructor
      · simp [show ((none : Option Bool) == some true) = false from rfl]
      · intro hcase; exact ⟨rfl, rfl⟩
  | some v =>
      constructor
      · dsimp only
        split
        next hcond => simp only [hcond, Option.isSome_some]
        next hcond =>
          rw [Bool.not_eq_true] at hcond
          simp only [hcond, Option.isSome_none]
      · intro hcase
        have hb := computeBad_none (resolveRule metric key entry) v hcase
        dsimp only
        rw [hb]
        refine ⟨rfl, ?_⟩
        simp [show ((none : Option Bool) == some true) = false from rfl]

/-- C4 witness: the spec's scenario — metric `cpu = 95`, rule
`{op: ">", target: 90}`, empty history — produces an alert row. -/
theorem claimC4_witness :
    (evalMetric metricCfgC4 lastNone "app" 3 "cpu" ⟨.num 95, false⟩).alert.isSome
      = true := by
  have h := claimC4_alert_decision metricCfgC4 lastNone "app" 3 "cpu"
    ⟨.num 95, false⟩ ruleC4 (by decide) (by decide)
  rw [h.1]
  decide

/-- C6: a non-`direct` metric whose value parses to NaN is skipped for
the cycle — the iteration ends at the `continue` with no alert row and
no snapshot push — and the loop over the remaining metrics proceeds
unchanged. -/
theorem claimC6_nan_skip (metric : List (String × ProbeRule))
    (last : Nat → String → Option JsVal) (name : String) (pmId : Nat)
    (key : String) (entry : MonitEntry)
    (rest : List (String × MonitEntry)) (r : ProbeRule)
    (hr : resolveRule metric key entry = r) (he : r.exclude = false)
    (hd : r.direct = false) (hp : parseFloatM entry.value = none) :
    evalMetric metric last name pmId key entry = { nanSkip := true } ∧
    evalMetrics metric last name pmId ((key, entry) :: rest) =
      evalMetrics metric last name pmId rest := by
  have h1 : evalMetric metric last name pmId key entry = { nanSkip := true } := by
    simp only [evalMetric, hr, he, hd, hp, Bool.false_eq_true, if_false]
    rfl
  refine ⟨h1, ?_⟩
  show (_, _) = _
  rw [h1]
  show ((none : Option AlertRow).toList ++ _,
        (none : Option PushCall).toList ++ _) = _
  simp

/-- C6 witness: an unconfigured string metric `"abc"` is skipped and a
two-metric list collapses to its tail. -/
theorem claimC6_witness :
    evalMetric [] lastNone "app" 1 "foo" ⟨.str "abc", false⟩ =
      { nanSkip := true } ∧
    evalMetrics [] lastNone "app" 1
        [("foo", ⟨.str "abc", false⟩), ("cpu", ⟨.num 5, false⟩)] =
      evalMetrics [] lastNone "app" 1 [("cpu", ⟨.num 5, false⟩)] := by
  have h := claimC6_nan_skip [] lastNone "app" 1 "foo" ⟨.str "abc", false⟩
    [("cpu", ⟨.num 5, false⟩)] { noNotify := true }
    (by decide) (by decide) (by decide) (by decide)
  exact h

/-- C9: a metric key with no entry in the configured `metric` map gets
the implicit default rule `{noNotify: true, direct: d, noHistory: d}`
with `d` the observed entry's own `direct` flag — and, `noNotify`
being true, such a metric never raises an alert row. -/
theorem claimC9_default_rule (metric : List (String × ProbeRule))
    (last : Nat → String → Option JsVal) (name : String) (pmId : Nat)
    (key : String) (entry : MonitEntry)
    (h : lookupRule metric key = none) :
    resolveRule metric key entry =
      { noNotify := true, direct := entry.direct, noHistory := entry.direct } ∧
    (evalMetric metric last name pmId key entry).alert = none := by
  have h1 : resolveRule metric key entry =
      { noNotify := true, direct := entry.direct, noHistory := entry.direct } := by
    unfold resolveRule
    rw [h]
  refine ⟨h1, ?_⟩
  simp only [evalMetric, h1]
  cases hd : entry.direct with
  | true =>
      simp [show (!(true : Bool)) = false from rfl]
  | false =>
      cases hp : parseFloatM entry.value with
      | none => simp
      | some q => simp [show (!(true : Bool)) = false from rfl]

/-- C9 witness: the injected `node` version metric with no configured
rule resolves to the direct no-notify default and yields no alert. -/
theorem claimC9_witness :
    resolveRule [] "node" ⟨.str "v14.17.0", true⟩ =
      { noNotify := true, direct := true, noHistory := true } ∧
    (evalMetric [] lastNone "app" 1 "node" ⟨.str "v14.17.0", true⟩).alert
      = none := by
  have h := claimC9_default_rule [] lastNone "app" 1 "node"
    ⟨.str "v14.17.0", true⟩ rfl
  exact h

/-- C8: for a process named `pm2-health` or listed in `appsExcluded`,
no alert of any kind is ever produced: the lifecycle, exception and
message handlers return before building one, and the probe evaluator
skips the whole process — no alert rows and no history pushes. -/
theorem claimC8_excluded_app_silent (c : Config) (name : String)
    (h : name = "pm2-health" ∨
      ∃ l, c.appsExcluded = some l ∧ name ∈ l) :
    isAppExcluded c name = true ∧
    (∀ d : EventData, d.process.name = name → eventAlert c d = none) ∧
    (∀ pmId : Nat, exceptionAlert c name pmId = none) ∧
    (∀ (test : String → String → Bool) (pmId : Nat) (json : String),
      messageAlert test c name pmId json = none) ∧
    (∀ (last : Nat → String → Option JsVal) (e : ProcEntry),
      e.name = name → evalProc c last e = ([], [])) := by
  have hx : isAppExcluded c name = true := by
    unfold isAppExcluded
    cases h with
    | inl h1 => subst h1; simp
    | inr h2 =>
        obtain ⟨l, hl, hm⟩ := h2
        rw [hl]
        simp [hm]
  refine ⟨hx, ?_, ?_, ?_, ?_⟩
  · intro d hd
    unfold eventAlert
    rw [hd, hx]
    simp
  · intro pmId
    unfold exceptionAlert
    rw [hx]
    cases c.exceptions <;> simp
  · intro test pmId json
    unfold messageAlert
    rw [hx]
    cases c.messages <;> simp
  · intro last e hname
    unfold evalProc
    rw [hname, hx]
    simp

/-- C8 witness: the theorem at the excluded app `worker` and at the
tool's own name — the evaluator yields no rows and no pushes, and the
handlers yield no alert. -/
theorem claimC8_witness :
    isAppExcluded cfgC8 "worker" = true ∧
    evalProc cfgC8 lastNone procC8 = ([], []) ∧
    exceptionAlert cfgC8 "worker" 2 = none ∧
    isAppExcluded cfgC8 "pm2-health" = true := by
  have h1 := claimC8_excluded_app_silent cfgC8 "worker"
    (Or.inr ⟨["worker"], rfl, by decide⟩)
  have h2 := claimC8_excluded_app_silent cfgC8 "pm2-health" (Or.inl rfl)
  exact ⟨h1.1, h1.2.2.2.2 lastNone procC8 rfl, h1.2.2.1 2, h2.1⟩
